import Mathlib

/-!
Verification of the file-explorer reducer and the workspace/terminal
orchestration of `src/components/editor/components/common/file-explorer.tsx`.

The TypeScript source is shallowly embedded: the reducer and its state are
pure functions on inductive types; the Effect-based orchestration (the
`solved` write stream, the terminal session generator, the stream wiring of
`mount`) is embedded as pure trace-producing functions, with the events of
the session recorded in order.
-/

namespace Website

/-- The type `FileExplorer.InputType`: `"file" | "directory"`. -/
inductive InputType
  | file
  | directory
deriving DecidableEq, Repr

/-- The type `FileExplorer.CreationMode`: the tagged enum
`Idle | CreatingFile {path} | CreatingDirectory {path}`. -/
inductive CreationMode
  | Idle
  | CreatingFile (path : String)
  | CreatingDirectory (path : String)
deriving DecidableEq, Repr

/-- The type `FileExplorer.State`: `{ readonly creationMode: CreationMode }`. -/
structure State where
  creationMode : CreationMode
deriving DecidableEq, Repr

/-- The type `FileExplorer.Action`: the tagged enum
`ShowInput {type, path} | HideInput {}`. -/
inductive Action
  | ShowInput (type : InputType) (path : String)
  | HideInput
deriving DecidableEq, Repr

/-- The `reducer` function of `file-explorer.tsx`: on `ShowInput` it replaces
`creationMode` with `CreatingFile {path}` when `action.type === "file"` and
with `CreatingDirectory {path}` otherwise; on `HideInput` it replaces
`creationMode` with `Idle`. -/
def reducer (state : State) (action : Action) : State :=
  match action with
  | .ShowInput t p =>
      let creationMode :=
        if t = InputType.file then CreationMode.CreatingFile p
        else CreationMode.CreatingDirectory p
      { state with creationMode := creationMode }
  | .HideInput =>
      { state with creationMode := CreationMode.Idle }

/-- The `initialState` constant: `{ creationMode: CreationMode.Idle() }`. -/
def initialState : State :=
  { creationMode := CreationMode.Idle }

/-- Applying a sequence of dispatched actions from the initial state, as
`useReducer(reducer, initialState)` does. -/
def runActions (actions : List Action) : State :=
  actions.foldl reducer initialState

/-- C1: the reducer maps `ShowInput {type: "file", path: p}` to a state whose
`creationMode` is `CreatingFile {path: p}`, `ShowInput {type: "directory",
path: p}` to `CreatingDirectory {path: p}`, and `HideInput` to `Idle`, for
every prior state `s`. -/
theorem reducer_transitions (s : State) (p : String) :
    (reducer s (Action.ShowInput InputType.file p)).creationMode =
      CreationMode.CreatingFile p ∧
    (reducer s (Action.ShowInput InputType.directory p)).creationMode =
      CreationMode.CreatingDirectory p ∧
    (reducer s Action.HideInput).creationMode = CreationMode.Idle := by
  refine ⟨rfl, ?_, rfl⟩
  simp [reducer]

/-- C7: the reducer's result is independent of the prior state, and applying
the same action twice yields the same state as applying it once. -/
theorem reducer_state_independent (s1 s2 : State) (a : Action) :
    reducer s1 a = reducer s2 a ∧ reducer (reducer s1 a) a = reducer s1 a := by
  cases s1
  cases s2
  cases a <;> simp [reducer]

/-- C9: the initial state of the file explorer has `creationMode = Idle`. -/
theorem initialState_idle : initialState.creationMode = CreationMode.Idle := rfl

/-- C3 helper: the invariant holds of a fold from any state already
satisfying it relative to the earlier actions. -/
theorem runActions_invariant_aux (actions : List Action) (s : State)
    (hs : s.creationMode = CreationMode.Idle ∨
      (∃ p, s.creationMode = CreationMode.CreatingFile p ∧
        Action.ShowInput InputType.file p ∈ actions) ∨
      (∃ p, s.creationMode = CreationMode.CreatingDirectory p ∧
        Action.ShowInput InputType.directory p ∈ actions))
    (rest : List Action) :
    (rest.foldl reducer s).creationMode = CreationMode.Idle ∨
    (∃ p, (rest.foldl reducer s).creationMode = CreationMode.CreatingFile p ∧
      Action.ShowInput InputType.file p ∈ actions ++ rest) ∨
    (∃ p, (rest.foldl reducer s).creationMode = CreationMode.CreatingDirectory p ∧
      Action.ShowInput InputType.directory p ∈ actions ++ rest) := by
  induction rest generalizing s actions with
  | nil =>
      simp only [List.foldl_nil, List.append_nil]
      exact hs
  | cons a as ih =>
      simp only [List.foldl_cons]
      have key :
          (reducer s a).creationMode = CreationMode.Idle ∨
          (∃ p, (reducer s a).creationMode = CreationMode.CreatingFile p ∧
            Action.ShowInput InputType.file p ∈ actions ++ [a]) ∨
          (∃ p, (reducer s a).creationMode = CreationMode.CreatingDirectory p ∧
            Action.ShowInput InputType.directory p ∈ actions ++ [a]) := by
        cases a with
        | ShowInput t p =>
            cases t with
            | file =>
                refine Or.inr (Or.inl ⟨p, ?_, by simp⟩)
                simp [reducer]
            | directory =>
                refine Or.inr (Or.inr ⟨p, ?_, by simp⟩)
                simp [reducer]
        | HideInput =>
            exact Or.inl rfl
      have h := ih (actions ++ [a]) (reducer s a) key
      simpa [List.append_assoc] using h

/-- C3: starting from the initial state, after any sequence of actions the
`creationMode` is exactly one of `Idle`, `CreatingFile`, or
`CreatingDirectory`, and in the latter two cases the path it carries is the
path of a `ShowInput` action of the matching type in the sequence. -/
theorem creationMode_tri_state (actions : List Action) :
    (runActions actions).creationMode = CreationMode.Idle ∨
    (∃ p, (runActions actions).creationMode = CreationMode.CreatingFile p ∧
      Action.ShowInput InputType.file p ∈ actions) ∨
    (∃ p, (runActions actions).creationMode = CreationMode.CreatingDirectory p ∧
      Action.ShowInput InputType.directory p ∈ actions) := by
  have h := runActions_invariant_aux [] initialState (Or.inl rfl) actions
  simpa [runActions] using h

/-- A workspace file as used by `workspaceHandleRx`: it carries an
`initialContent` and an optional `solution` (`file.solution ?? ...` is the
nullish-coalescing access in the source). -/
structure WFile where
  initialContent : String
  solution : Option String
deriving DecidableEq, Repr

/-- The fields of `Workspace` used by `workspaceHandleRx` and the terminal
session: its `name` and its `filePaths` pairing each file with its path. -/
structure Workspace where
  name : String
  filePaths : List (WFile × String)
deriving DecidableEq, Repr

/-- The content `handle.write` receives for a file on one emission of the
`solved` flag: `solve ? file.solution ?? file.initialContent :
file.initialContent`. -/
def writeContent (file : WFile) (solve : Bool) : String :=
  if solve then file.solution.getD file.initialContent else file.initialContent

/-- The writes triggered by one emission of `solved`: for each
`[file, path]` in `workspace.filePaths`, `handle.write(path, ...)` with the
content of `writeContent`. -/
def emissionWrites (w : Workspace) (solve : Bool) : List (String × String) :=
  w.filePaths.map (fun fp => (fp.2, writeContent fp.1 solve))

/-- The values a subscriber of an Rx observes: the initial value followed by
the updates, or only the updates when `withoutInitialValue` is set (as in
`get.stream(solved, { withoutInitialValue: true })`). -/
def observedEmissions (initial : Bool) (updates : List Bool)
    (withoutInitialValue : Bool) : List Bool :=
  if withoutInitialValue then updates else initial :: updates

/-- All writes performed by the `solved` subscription of
`workspaceHandleRx`: the `solved` Rx starts at `false`, the stream is taken
without its initial value, and each observed emission triggers
`emissionWrites`. -/
def solvedWrites (w : Workspace) (updates : List Bool) :
    List (String × String) :=
  (observedEmissions false updates true).flatMap (emissionWrites w)

/-- C2: on each emission of `solved` after the initial value, each
`(file, path)` of `workspace.filePaths` is written with exactly
`file.solution` when solved and a solution is defined, and
`file.initialContent` otherwise; and the initial value of the flag triggers
no write (no updates means no writes at all). -/
theorem solved_write_contents (w : Workspace) (updates : List Bool)
    (solve : Bool) (file : WFile) (path : String)
    (hmem : (file, path) ∈ w.filePaths) :
    (∀ sol, file.solution = some sol → writeContent file true = sol) ∧
    (file.solution = none → writeContent file true = file.initialContent) ∧
    writeContent file false = file.initialContent ∧
    (path, writeContent file solve) ∈ emissionWrites w solve ∧
    (solve ∈ updates → (path, writeContent file solve) ∈ solvedWrites w updates) ∧
    solvedWrites w [] = [] := by
  refine ⟨?_, ?_, rfl, ?_, ?_, rfl⟩
  · intro sol hsol
    simp [writeContent, hsol]
  · intro hnone
    simp [writeContent, hnone]
  · exact List.mem_map.mpr ⟨(file, path), hmem, rfl⟩
  · intro hsolve
    refine List.mem_flatMap.mpr ⟨solve, ?_, ?_⟩
    · simpa [observedEmissions] using hsolve
    · exact List.mem_map.mpr ⟨(file, path), hmem, rfl⟩

/-- C2 witness: the theorem instantiated at a concrete workspace with one
file that has a solution, and one `solved = true` update. -/
theorem solved_write_contents_witness :
    (⟨"p", writeContent ⟨"init", some "sol"⟩ true⟩ : String × String) ∈
      solvedWrites ⟨"ws", [(⟨"init", some "sol"⟩, "p")]⟩ [true] :=
  ((solved_write_contents ⟨"ws", [(⟨"init", some "sol"⟩, "p")]⟩ [true] true
      ⟨"init", some "sol"⟩ "p" (by simp)).2.2.2.2.1 (by simp))

/-- The content of the last write a file receives over a sequence of
`solved` updates (none when there is no update). -/
def lastWriteFor (file : WFile) (updates : List Bool) : Option String :=
  (updates.map (writeContent file)).getLast?

/-- C8: toggling `solved` is a round trip: after emitting `true` then
`false` the last content written for a file is its `initialContent`; and a
file with no solution is written `initialContent` under every emission, so
the toggle never changes its content. -/
theorem solved_toggle_round_trip (file : WFile) :
    lastWriteFor file [true, false] = some file.initialContent ∧
    (file.solution = none →
      ∀ solve, writeContent file solve = file.initialContent) := by
  constructor
  · simp [lastWriteFor, writeContent]
  · intro hnone solve
    cases solve <;> simp [writeContent, hnone]

/-- C8 witness: the theorem instantiated at a concrete file without a
solution. -/
theorem solved_toggle_round_trip_witness :
    writeContent ⟨"init", none⟩ true = "init" :=
  (solved_toggle_round_trip ⟨"init", none⟩).2 rfl true

/-- The type `WorkspaceShell` as used by the terminal Rx: an optional shell
`command`. -/
structure WorkspaceShell where
  command : Option String
deriving DecidableEq, Repr

/-- JavaScript truthiness of `env.command`: `undefined` and the empty
string are falsy. -/
def commandTruthy : Option String → Bool
  | none => false
  | some s => !(s == "")

/-- An event of the terminal session, in the order the `terminalRx` effect
performs it. -/
inductive Event
  | termWrite (s : String)
  | shellInputWrite (s : String)
  | awaitPrepare
  | sleepMs (n : Nat)
  | mountWiring
deriving DecidableEq, Repr

/-- The ordered trace of the terminal session of `terminalRx`:
`terminal.write("Loading workspace...\n")`, then in the forked generator
`input.write('cd "<name>" && clear\n')`, `prepare.await`, and — when
`env.command` is truthy — a 3000 ms sleep, the mount, and
`input.write('<command>\n')`; otherwise just the mount. -/
def sessionTrace (w : Workspace) (env : WorkspaceShell) : List Event :=
  [Event.termWrite "Loading workspace...\n",
   Event.shellInputWrite ("cd \"" ++ w.name ++ "\" && clear\n"),
   Event.awaitPrepare] ++
  (match env.command with
   | some cmd =>
       if cmd == "" then [Event.mountWiring]
       else [Event.sleepMs 3000, Event.mountWiring,
             Event.shellInputWrite (cmd ++ "\n")]
   | none => [Event.mountWiring])

/-- C5: the session first writes `Loading workspace...\n` to the terminal,
then writes `cd "<name>" && clear\n` to the shell input, then awaits the
prepare fiber; the mount occurs only after these three events; and when the
shell environment has a (truthy) command, what follows the await is exactly
the 3-second sleep, the mount, and then the command written to the shell
input. -/
theorem terminal_session_order (w : Workspace) (env : WorkspaceShell) :
    (sessionTrace w env).take 3 =
      [Event.termWrite "Loading workspace...\n",
       Event.shellInputWrite ("cd \"" ++ w.name ++ "\" && clear\n"),
       Event.awaitPrepare] ∧
    Event.mountWiring ∈ (sessionTrace w env).drop 3 ∧
    Event.mountWiring ∉ (sessionTrace w env).take 3 ∧
    (∀ cmd, env.command = some cmd → commandTruthy env.command = true →
      (sessionTrace w env).drop 3 =
        [Event.sleepMs 3000, Event.mountWiring,
         Event.shellInputWrite (cmd ++ "\n")]) := by
  obtain ⟨cmd⟩ := env
  refine ⟨?_, ?_, ?_, ?_⟩
  · cases cmd with
    | none => simp [sessionTrace]
    | some c =>
        by_cases h : c == "" <;> simp [sessionTrace, h]
  · cases cmd with
    | none => simp [sessionTrace]
    | some c =>
        by_cases h : c == "" <;> simp [sessionTrace, h]
  · cases cmd with
    | none => simp [sessionTrace]
    | some c =>
        by_cases h : c == "" <;> simp [sessionTrace, h]
  · intro c hc htruthy
    subst hc
    have h : (c == "") = false := by
      simpa [commandTruthy] using htruthy
    simp [sessionTrace, h]

/-- C5 witness: the theorem instantiated at a workspace named `ws` with a
shell whose command is `npm test`. -/
theorem terminal_session_order_witness :
    (sessionTrace ⟨"ws", []⟩ ⟨some "npm test"⟩).drop 3 =
      [Event.sleepMs 3000, Event.mountWiring,
       Event.shellInputWrite ("npm test" ++ "\n")] :=
  (terminal_session_order ⟨"ws", []⟩ ⟨some "npm test"⟩).2.2.2
    "npm test" rfl (by decide)

/-- The `mount` wiring of `shell.output` into the terminal: each chunk
`data` of the output stream is passed to `terminal.write(data)`. -/
def pipeOutputToTerminal (chunks : List String) : List Event :=
  chunks.map (fun data => Event.termWrite data)

/-- The `mount` wiring of `terminal.onData` into the shell input: each
chunk `data` emitted by the terminal is passed to `input.write(data)`. -/
def pipeTerminalDataToShell (chunks : List String) : List Event :=
  chunks.map (fun data => Event.shellInputWrite data)

/-- C6: the mount wires the streams in both directions and verbatim: the
i-th chunk of `shell.output` becomes the i-th `terminal.write` with the
same data, the i-th chunk of `terminal.onData` becomes the i-th
`input.write` with the same data, and no extra writes occur. -/
theorem mount_wires_streams (chunks : List String) (i : Nat) (data : String)
    (hi : chunks[i]? = some data) :
    (pipeOutputToTerminal chunks)[i]? = some (Event.termWrite data) ∧
    (pipeTerminalDataToShell chunks)[i]? = some (Event.shellInputWrite data) ∧
    (pipeOutputToTerminal chunks).length = chunks.length ∧
    (pipeTerminalDataToShell chunks).length = chunks.length := by
  refine ⟨?_, ?_, by simp [pipeOutputToTerminal], by simp [pipeTerminalDataToShell]⟩
  · simp [pipeOutputToTerminal, List.getElem?_map, hi]
  · simp [pipeTerminalDataToShell, List.getElem?_map, hi]

/-- C6 witness: the theorem instantiated on a concrete two-chunk stream. -/
theorem mount_wires_streams_witness :
    (pipeOutputToTerminal ["a", "b"])[1]? = some (Event.termWrite "b") :=
  (mount_wires_streams ["a", "b"] 1 "b" (by decide)).1

/-- The writable `terminalSize` Rx's setter: on a write it calls
`ctx.setSelf(size++)` — the value passed to `setSelf` is the old counter
and the stored counter becomes its successor. The first component is the
value passed to `setSelf`, the second the new stored counter. -/
def writableUpdate (size : Nat) : Nat × Nat := (size, size + 1)

/-- The stored `size` counter after a sequence of writes to the
`terminalSize` Rx, starting from `let size = 0`. -/
def counterAfter (writes : List Unit) : Nat :=
  writes.foldl (fun size _ => (writableUpdate size).2) 0

/-- The duration passed to `Rx.debounce` on `terminalSize`. -/
def debounceMillis : Nat := 250

/-- The resizes performed by
`get.stream(terminalSize).pipe(Stream.runForEach(() => resize))`: one
resize per debounced emission. -/
def resizeEvents (emissions : List Nat) : List Unit :=
  emissions.map (fun _ => ())

/-- C4: each write to the `terminalSize` Rx increments the stored counter
by exactly one (so after any sequence of writes the counter equals the
number of writes), the debounce duration is 250 milliseconds, and each
debounced emission triggers exactly one resize. -/
theorem terminal_resize_debounced (n : Nat) (writes : List Unit)
    (emissions : List Nat) :
    (writableUpdate n).2 = n + 1 ∧
    counterAfter writes = writes.length ∧
    debounceMillis = 250 ∧
    (resizeEvents emissions).length = emissions.length := by
  refine ⟨rfl, ?_, rfl, by simp [resizeEvents]⟩
  have key : ∀ (l : List Unit) (a : Nat),
      l.foldl (fun size _ => (writableUpdate size).2) a = a + l.length := by
    intro l
    induction l with
    | nil => intro a; simp
    | cons x xs ih =>
        intro a
        rw [List.foldl_cons, ih]
        simp [writableUpdate]
        omega
  simpa [counterAfter] using key writes 0

end Website
